import Mathlib

/-!
Verification of the ballchaser client library core: the request executor
(`BallChaser._request`), the rate-limit retry wrapper
(`BallChaser._request_backoff`, built with `backoff.on_exception`), and the
paginated list producers (`BallChaser.list_replays` / `BallChaser.list_groups`).

The embedding models the transport as a script of pre-determined server
replies; the client code is translated function-by-function from
`src/ballchaser/client.py`.
-/

set_option autoImplicit false

namespace BallChaser

/-- An HTTP response as seen by the client: the status code, the raw body
text (`response.text`), and, when the body is structured JSON containing an
`error` field, that field's value (used only to compare the code's behaviour
with the spec's stated error-extraction policy; the client code itself never
reads it). -/
structure Response where
  status_code : Nat
  text : String
  jsonError : Option String
  deriving Repr, DecidableEq

/-- The exceptions the client raises: `RateLimitException(response.text)` on
status 429, a plain `Exception(response.text)` on any other non-2xx status
(client.py 124-127), `ValueError` from `_check_param` (client.py 100-106),
and the plain `Exception` for a missing player identifier
(client.py 226-229). -/
inductive BCError where
  | rateLimit (detail : String)
  | generic (detail : String)
  | valueError (detail : String)
  deriving Repr, DecidableEq

/-- The detail message carried by an exception. -/
def BCError.detail : BCError → String
  | .rateLimit d => d
  | .generic d => d
  | .valueError d => d

/-- Whether an exception is the distinguishable `RateLimitException`. -/
def BCError.isRateLimit : BCError → Bool
  | .rateLimit _ => true
  | _ => false

/-- `BallChaser._request` (client.py 108-129): classify one response.
Any status in `[200, 300)` returns the response; status 429 raises
`RateLimitException(response.text)`; any other status raises
`Exception(response.text)`. -/
def _request (resp : Response) : Except BCError Response :=
  if 200 ≤ resp.status_code ∧ resp.status_code < 300 then
    Except.ok resp
  else if resp.status_code = 429 then
    Except.error (BCError.rateLimit resp.text)
  else
    Except.error (BCError.generic resp.text)

/-- The exception `_request` raises for a non-2xx response. -/
def requestError (resp : Response) : BCError :=
  if resp.status_code = 429 then BCError.rateLimit resp.text
  else BCError.generic resp.text

/-- `_request` run against a transport stream at cursor `k`: it consumes
exactly one response (the cursor advances by one) and performs no other
state change. -/
def _request_at (transport : Nat → Response) (k : Nat) :
    Except BCError Response × Nat :=
  (_request (transport k), k + 1)

/-- `BallChaser._request_backoff` (client.py 86-88): `_request` wrapped in
the backoff library's retry loop, as configured there —
`on_exception(expo, RateLimitException, max_tries, jitter=None)`.  The loop
re-calls `_request` only when it raised `RateLimitException`, up to
`maxTries` total attempts, then re-raises the last exception; a success or
any other exception is returned/raised immediately.  The exponential sleep
between attempts does not affect the value and is not modelled.  The second
component is the transport cursor after the call; `maxTries = 0` is treated
like `1` (the library requires a positive bound). -/
def _request_backoff (transport : Nat → Response) :
    Nat → Nat → Except BCError Response × Nat
  | 0, k => (_request (transport k), k + 1)
  | 1, k => (_request (transport k), k + 1)
  | n + 2, k =>
    match _request (transport k) with
    | Except.error (BCError.rateLimit _) => _request_backoff transport (n + 1) (k + 1)
    | r => (r, k + 1)

/-- A page response as parsed by the producers (`r.json()`): the wire
contract has required key `list` (array of items), optional `next`
(string URL) and optional `count` (reported total, never read by the
client). -/
structure Page (α : Type) where
  list : List α
  next : Option String
  count : Option Nat
  deriving Repr, DecidableEq

/-- One scripted server reply to a page fetch: either a 2xx response whose
parsed JSON body is `page`, or a non-2xx response, on which `__request`
raises. -/
inductive FetchResult (α : Type) where
  | ok (page : Page α)
  | fail (resp : Response)
  deriving Repr, DecidableEq

/-- The observable trace of driving one list production to exhaustion:
the items yielded from each fetched page (in order), the pages fetched,
the `count` query parameter of each follow-up request issued, the total
number of page requests issued, the exception propagated to the consumer
(if any), and a model-artifact flag set when the script ended while one
more fetch was due. -/
structure ListTrace (α : Type) where
  perPage : List (List α)
  pagesFetched : List (Page α)
  followUps : List Nat
  requests : Nat
  error : Option BCError
  starved : Bool
  deriving Repr, DecidableEq

/-- All items a production yields to its caller, in order. -/
def ListTrace.yielded {α : Type} (t : ListTrace α) : List α :=
  t.perPage.flatten

/-- The `while remaining > 0 and "next" in r.json():` loop shared by
`list_replays` (client.py 287-294) and `list_groups` (client.py 455-462).
`remaining` and the previous response's `next` pointer are the loop state;
each iteration issues a follow-up request with query parameter
`count = min(remaining, 200)`, yields `list[:remaining]` from the reply,
and recomputes `remaining = requested - len(list)`. -/
def listLoop {α : Type} (requested : Nat) (script : List (FetchResult α))
    (remaining : Int) (next : Option String) : ListTrace α :=
  if 0 < remaining ∧ next.isSome then
      match script with
      | [] => ⟨[], [], [], 0, none, true⟩
      | FetchResult.fail resp :: _ =>
        ⟨[], [], [Int.toNat (min remaining 200)], 1, some (requestError resp), false⟩
      | FetchResult.ok p :: rest =>
        let t := listLoop requested rest ((requested : Int) - p.list.length) p.next
        ⟨p.list.take remaining.toNat :: t.perPage, p :: t.pagesFetched,
          Int.toNat (min remaining 200) :: t.followUps, t.requests + 1,
          t.error, t.starved⟩
    else ⟨[], [], [], 0, none, false⟩

/-- The pagination core shared by `list_replays` (client.py 281-294) and
`list_groups` (client.py 449-462), run after parameter validation: issue
the initial request, yield `list[:requested]` from the first page, set
`remaining = requested - len(list)` and enter the follow-up loop. -/
def list_core {α : Type} (requested : Nat) (script : List (FetchResult α)) :
    ListTrace α :=
  match script with
  | [] => ⟨[], [], [], 0, none, true⟩
  | FetchResult.fail resp :: _ =>
    ⟨[], [], [], 1, some (requestError resp), false⟩
  | FetchResult.ok p :: rest =>
    let t := listLoop requested rest ((requested : Int) - p.list.length) p.next
    ⟨p.list.take requested :: t.perPage, p :: t.pagesFetched,
      t.followUps, t.requests + 1, t.error, t.starved⟩

/-- The number of items still wanted before consuming fetched page `k`, in
closed form: `requested` for the first page, and
`requested - len(pages[k-1])` (the length of the page fetched just before,
clamped at zero) for every later page — fresh each time, not a cumulative
running total of items yielded. -/
def freshRemaining {α : Type} (requested : Nat) (pages : List (Page α)) :
    Nat → Nat
  | 0 => requested
  | k + 1 =>
    Int.toNat ((requested : Int) - ((pages[k]?.map (fun p => p.list.length)).getD 0))

/-- The `_playlists` allow-list (client.py 16-40). -/
def _playlists : List String :=
  ["unranked-duels", "unranked-doubles", "unranked-standard", "unranked-chaos",
   "private", "season", "offline", "ranked-duels", "ranked-doubles",
   "ranked-solo-standard", "ranked-standard", "snowday", "rocketlabs",
   "hoops", "rumble", "tournament", "dropshot", "ranked-hoops",
   "ranked-rumble", "ranked-dropshot", "ranked-snowday", "dropshot-rumble",
   "heatseeker"]

/-- The `_ranks` allow-list (client.py 41-62). -/
def _ranks : List String :=
  ["unranked", "bronze-1", "bronze-2", "bronze-3", "silver-1", "silver-2",
   "silver-3", "gold-1", "gold-2", "gold-3", "platinum-1", "platinum-2",
   "platinum-3", "diamond-1", "diamond-2", "diamond-3", "champion-1",
   "champion-2", "champion-3", "grand-champion"]

/-- The `_match_results` allow-list (client.py 63). -/
def _match_results : List String := ["win", "loss"]

/-- The `_sort_by_replays` allow-list (client.py 67). -/
def _sort_by_replays : List String := ["created", "replay-date"]

/-- The `_sort_by_groups` allow-list (client.py 68). -/
def _sort_by_groups : List String := ["created", "name"]

/-- The `_sort_dir` allow-list (client.py 69). -/
def _sort_dir : List String := ["asc", "desc"]

/-- `BallChaser._check_param` (client.py 90-106): every item of `param`
must be in `allowed_values`; the first item that is not raises a
`ValueError` naming the parameter and the offending item. -/
def _check_param (param : List String) (allowed_values : List String)
    (param_name : String) : Option BCError :=
  match param with
  | [] => none
  | item :: rest =>
    if item ∈ allowed_values then _check_param rest allowed_values param_name
    else some (BCError.valueError
      (param_name ++ " value(s) must be one of allowed_values, got " ++ item))

/-- Python truthiness of an optional string argument: `None` and the empty
string are falsy (`if not player_name and not player_id`, client.py 226). -/
def pyTruthy : Option String → Bool
  | none => false
  | some s => s != ""

/-- `_check_param` applied to an optional scalar argument, skipped when the
argument is `None` (client.py 231-238). -/
def checkOpt (p : Option String) (allowed : List String) (name : String) :
    Option BCError :=
  match p with
  | none => none
  | some v => _check_param [v] allowed name

/-- The arguments of `list_replays` that its validation prefix inspects
(client.py 226-241); the remaining arguments only shape the outgoing query
parameters. -/
structure ListReplaysArgs where
  player_name : Option String
  player_id : Option String
  playlist : Option (List String)
  match_result : Option String
  min_rank : Option String
  max_rank : Option String
  sort_by : String
  sort_dir : String
  deriving Repr, DecidableEq

/-- The validation prefix of the `list_replays` generator body
(client.py 226-241), in source order: the first exception it raises, if
any.  It runs before any network request. -/
def list_replays_validate (a : ListReplaysArgs) : Option BCError :=
  if ¬ pyTruthy a.player_name ∧ ¬ pyTruthy a.player_id then
    some (BCError.generic
      "At least one of player_name or player_id must be supplied")
  else
    (match a.playlist with
     | none => none
     | some pl => _check_param pl _playlists "playlist") <|>
    checkOpt a.match_result _match_results "match_result" <|>
    checkOpt a.min_rank _ranks "min_rank" <|>
    checkOpt a.max_rank _ranks "max_rank" <|>
    _check_param [a.sort_by] _sort_by_replays "sort_by" <|>
    _check_param [a.sort_dir] _sort_dir "sort_dir"

/-- A `list_replays` generator object.  `list_replays` is a generator
function, so calling it only packages its arguments; no statement of the
body — validation included — runs until the first item is requested. -/
structure ReplaysIterator where
  args : ListReplaysArgs
  replay_count : Nat
  deriving Repr, DecidableEq

/-- Calling `list_replays(...)` (client.py 164-186): builds the generator
object and nothing else. -/
def list_replays_call (a : ListReplaysArgs) (replay_count : Nat) :
    ReplaysIterator :=
  ⟨a, replay_count⟩

/-- Driving a `list_replays` generator to exhaustion against a transport
script: on the first `next()` the body runs — validation first (raising
before any request), then the pagination core (client.py 226-294). -/
def list_replays_run {α : Type} (g : ReplaysIterator)
    (script : List (FetchResult α)) : ListTrace α :=
  match list_replays_validate g.args with
  | some e => ⟨[], [], [], 0, some e, false⟩
  | none => list_core g.replay_count script

/-- The arguments of `list_groups` that its validation prefix inspects
(client.py 432-433). -/
structure ListGroupsArgs where
  sort_by : String
  sort_dir : String
  deriving Repr, DecidableEq

/-- The validation prefix of the `list_groups` generator body
(client.py 432-433): the first exception it raises, if any. -/
def list_groups_validate (a : ListGroupsArgs) : Option BCError :=
  _check_param [a.sort_by] _sort_by_groups "sort_by" <|>
  _check_param [a.sort_dir] _sort_dir "sort_dir"

/-- A `list_groups` generator object (client.py 404-414): calling the
generator function only packages its arguments. -/
structure GroupsIterator where
  args : ListGroupsArgs
  group_count : Nat
  deriving Repr, DecidableEq

/-- Calling `list_groups(...)`: builds the generator object and nothing
else. -/
def list_groups_call (a : ListGroupsArgs) (group_count : Nat) :
    GroupsIterator :=
  ⟨a, group_count⟩

/-- Driving a `list_groups` generator to exhaustion against a transport
script (client.py 432-462). -/
def list_groups_run {α : Type} (g : GroupsIterator)
    (script : List (FetchResult α)) : ListTrace α :=
  match list_groups_validate g.args with
  | some e => ⟨[], [], [], 0, some e, false⟩
  | none => list_core g.group_count script

/-- Modelled from the spec's stated error-extraction policy (§4.1), for
comparison with the code: if the response body is structured JSON
containing an `error` field, use that field as the detail; otherwise use
the raw response body as detail. -/
def spec_error_detail (resp : Response) : String :=
  resp.jsonError.getD resp.text

/-- A 2xx response used in concrete witnesses. -/
def resp200 : Response := ⟨200, "pong", none⟩

/-- A rate-limited response used in concrete witnesses. -/
def resp429 : Response := ⟨429, "too many requests", some "too many requests"⟩

/-- A server-error response whose body is structured JSON with an `error`
field (braces of the raw JSON text written as escapes). -/
def resp500 : Response :=
  ⟨500, "\x7b\"error\": \"Internal server error.\"\x7d",
    some "Internal server error."⟩

/-- First page of the spec's §8 concrete scenario: two items and a `next`
pointer. -/
def pageAB : Page Nat := ⟨[1, 2], some "https://ballchasing.com/api/replays", none⟩

/-- Second page of the spec's §8 concrete scenario: two items, no `next`. -/
def pageCD : Page Nat := ⟨[3, 4], none, none⟩

/-- The two-page script of the spec's §8 concrete scenario. -/
def twoPageScript : List (FetchResult Nat) :=
  [FetchResult.ok pageAB, FetchResult.ok pageCD]

/-- A script of three pages of sizes 8, 1 and 9 (the first two with `next`
pointers): with `requested_count = 10` the producer yields 18 items. -/
def unevenScript : List (FetchResult Nat) :=
  [FetchResult.ok ⟨[0, 1, 2, 3, 4, 5, 6, 7], some "u", none⟩,
   FetchResult.ok ⟨[8], some "u", none⟩,
   FetchResult.ok ⟨[9, 10, 11, 12, 13, 14, 15, 16, 17], none, none⟩]

/-! ### Request executor -/

lemma _request_of_2xx {resp : Response}
    (h : 200 ≤ resp.status_code ∧ resp.status_code < 300) :
    _request resp = Except.ok resp := by
  simp [_request, h]

lemma _request_of_429 {resp : Response} (h : resp.status_code = 429) :
    _request resp = Except.error (BCError.rateLimit resp.text) := by
  have h2 : ¬ (200 ≤ resp.status_code ∧ resp.status_code < 300) := by omega
  simp [_request, h, h2]

lemma _request_of_other {resp : Response}
    (h2 : ¬ (200 ≤ resp.status_code ∧ resp.status_code < 300))
    (h429 : resp.status_code ≠ 429) :
    _request resp = Except.error (BCError.generic resp.text) := by
  simp [_request, h2, h429]

lemma _request_of_fail {resp : Response}
    (h2 : ¬ (200 ≤ resp.status_code ∧ resp.status_code < 300)) :
    _request resp = Except.error (requestError resp) := by
  by_cases h : resp.status_code = 429
  · rw [_request_of_429 h, requestError, if_pos h]
  · rw [_request_of_other h2 h, requestError, if_neg h]

/-- Claim C4: the request executor `_request` consumes exactly one response
from the transport stream (the cursor advances by exactly one, and there is
no other state), and classifies the status three ways: any status in
`[200, 300)` returns the response as success; status 429 raises the
rate-limited `RateLimitException`; any other status raises a generic
(non-rate-limit) exception. -/
theorem request_classification (transport : Nat → Response) (k : Nat) :
    (_request_at transport k).2 = k + 1 ∧
    (200 ≤ (transport k).status_code ∧ (transport k).status_code < 300 →
      (_request_at transport k).1 = Except.ok (transport k)) ∧
    ((transport k).status_code = 429 →
      (_request_at transport k).1 =
        Except.error (BCError.rateLimit (transport k).text)) ∧
    (¬ (200 ≤ (transport k).status_code ∧ (transport k).status_code < 300) →
      (transport k).status_code ≠ 429 →
      (_request_at transport k).1 =
        Except.error (BCError.generic (transport k).text)) := by
  refine ⟨rfl, fun h => ?_, fun h => ?_, fun h2 h429 => ?_⟩
  · exact _request_of_2xx h
  · exact _request_of_429 h
  · exact _request_of_other h2 h429

/-- Concrete instance of `request_classification` on a 429 response. -/
theorem request_classification_witness :
    (_request_at (fun _ => resp429) 5).2 = 5 + 1 ∧
    (_request_at (fun _ => resp429) 5).1 =
      Except.error (BCError.rateLimit "too many requests") := by
  refine ⟨(request_classification (fun _ => resp429) 5).1, ?_⟩
  exact (request_classification (fun _ => resp429) 5).2.2.1 (by decide)

/-- Claim C5, counterexample: on a non-2xx response whose body is
structured JSON with an `error` field, the code attaches the raw body text
(`response.text`) as the exception detail, not the body's `error` field as
the spec's extraction policy states. -/
theorem request_detail_counterexample :
    _request resp500 = Except.error (BCError.generic resp500.text) ∧
    spec_error_detail resp500 = "Internal server error." ∧
    resp500.text ≠ "Internal server error." := by
  refine ⟨rfl, rfl, ?_⟩
  decide

/-- Claim C5, amended: for every failing response (status 429 or any other
non-2xx), the detail attached to the raised exception is always the raw
response body text (`response.text`), even when the body is structured JSON
containing an `error` field. -/
theorem request_detail_raw_text (resp : Response)
    (h : ¬ (200 ≤ resp.status_code ∧ resp.status_code < 300)) :
    ∃ e, _request resp = Except.error e ∧ e.detail = resp.text := by
  by_cases h429 : resp.status_code = 429
  · exact ⟨BCError.rateLimit resp.text, _request_of_429 h429, rfl⟩
  · exact ⟨BCError.generic resp.text, _request_of_other h h429, rfl⟩

/-- Concrete instance of `request_detail_raw_text` on `resp500`. -/
theorem request_detail_raw_text_witness :
    ∃ e, _request resp500 = Except.error e ∧
      e.detail = "\x7b\"error\": \"Internal server error.\"\x7d" :=
  request_detail_raw_text resp500 (by decide)

/-! ### Retry wrapper -/

lemma _request_backoff_of_2xx {transport : Nat → Response} {k : Nat}
    (h : 200 ≤ (transport k).status_code ∧ (transport k).status_code < 300) :
    ∀ maxTries, _request_backoff transport maxTries k =
      (Except.ok (transport k), k + 1)
  | 0 => by simp [_request_backoff, _request_of_2xx h]
  | 1 => by simp [_request_backoff, _request_of_2xx h]
  | n + 2 => by simp [_request_backoff, _request_of_2xx h]

lemma _request_backoff_of_other {transport : Nat → Response} {k : Nat}
    (h2 : ¬ (200 ≤ (transport k).status_code ∧ (transport k).status_code < 300))
    (h429 : (transport k).status_code ≠ 429) :
    ∀ maxTries, _request_backoff transport maxTries k =
      (Except.error (BCError.generic (transport k).text), k + 1)
  | 0 => by simp [_request_backoff, _request_of_other h2 h429]
  | 1 => by simp [_request_backoff, _request_of_other h2 h429]
  | n + 2 => by simp [_request_backoff, _request_of_other h2 h429]

lemma _request_backoff_allRateLimited {transport : Nat → Response}
    (h : ∀ i, (transport i).status_code = 429) :
    ∀ (n k : Nat), _request_backoff transport (n + 1) k =
      (Except.error (BCError.rateLimit (transport (k + n)).text), k + (n + 1))
  | 0, k => by
    simp [_request_backoff, _request_of_429 (h k)]
  | n + 1, k => by
    have step : _request_backoff transport (n + 1 + 1) k =
        _request_backoff transport (n + 1) (k + 1) := by
      simp [_request_backoff, _request_of_429 (h k)]
    rw [step, _request_backoff_allRateLimited h n (k + 1)]
    have e1 : k + 1 + n = k + (n + 1) := by omega
    have e2 : k + 1 + (n + 1) = k + (n + 1 + 1) := by omega
    rw [e1, e2]

/-- Claim C3: against a transport that returns status 429 on every call,
the retry wrapper configured with `max_tries = N` (for any `N ≥ 1`)
performs exactly `N` attempts — the transport cursor advances by exactly
`N` — and then surfaces the last attempt's failure as the distinguishable
`RateLimitException` (never a generic exception, never retrying
further). -/
theorem backoff_exhausts_rate_limit (transport : Nat → Response)
    (N k : Nat) (hN : 1 ≤ N)
    (h : ∀ i, (transport i).status_code = 429) :
    (_request_backoff transport N k).2 = k + N ∧
    (_request_backoff transport N k).1 =
      Except.error (BCError.rateLimit (transport (k + N - 1)).text) ∧
    (∀ e, (_request_backoff transport N k).1 = Except.error e →
      e.isRateLimit = true) := by
  obtain ⟨n, rfl⟩ : ∃ n, N = n + 1 := ⟨N - 1, by omega⟩
  rw [_request_backoff_allRateLimited h n k]
  refine ⟨rfl, ?_, ?_⟩
  · have : k + (n + 1) - 1 = k + n := by omega
    rw [this]
  · intro e he
    cases he
    rfl

/-- Concrete instance of `backoff_exhausts_rate_limit`: an always-429
transport with `max_tries = 3`, started at cursor 0. -/
theorem backoff_exhausts_rate_limit_witness :
    (_request_backoff (fun _ => resp429) 3 0).2 = 0 + 3 ∧
    (_request_backoff (fun _ => resp429) 3 0).1 =
      Except.error (BCError.rateLimit ((fun _ => resp429) (0 + 3 - 1)).text) ∧
    (∀ e, (_request_backoff (fun _ => resp429) 3 0).1 = Except.error e →
      e.isRateLimit = true) :=
  backoff_exhausts_rate_limit (fun _ => resp429) 3 0 (by decide)
    (fun _ => rfl)

/-- Claim C6: against a transport that is rate-limited on the first call
and successful on the second, the retry wrapper (with any
`max_tries ≥ 2`) performs exactly 2 attempts and returns the success
outcome; moreover on a success, or on a non-rate-limit failure, it
returns (respectively raises) after exactly one attempt, retrying
nothing. -/
theorem backoff_recovers_after_one_retry (transport : Nat → Response)
    (N k : Nat) (hN : 2 ≤ N)
    (h429 : (transport k).status_code = 429)
    (hok : 200 ≤ (transport (k + 1)).status_code ∧
      (transport (k + 1)).status_code < 300) :
    _request_backoff transport N k = (Except.ok (transport (k + 1)), k + 2) ∧
    (∀ (t2 : Nat → Response) (k2 N2 : Nat),
      200 ≤ (t2 k2).status_code ∧ (t2 k2).status_code < 300 →
      _request_backoff t2 N2 k2 = (Except.ok (t2 k2), k2 + 1)) ∧
    (∀ (t3 : Nat → Response) (k3 N3 : Nat),
      ¬ (200 ≤ (t3 k3).status_code ∧ (t3 k3).status_code < 300) →
      (t3 k3).status_code ≠ 429 →
      _request_backoff t3 N3 k3 =
        (Except.error (BCError.generic (t3 k3).text), k3 + 1)) := by
  refine ⟨?_, fun t2 k2 N2 h2 => _request_backoff_of_2xx h2 N2,
    fun t3 k3 N3 h3 h3' => _request_backoff_of_other h3 h3' N3⟩
  obtain ⟨n, rfl⟩ : ∃ n, N = n + 2 := ⟨N - 2, by omega⟩
  have step : _request_backoff transport (n + 2) k =
      _request_backoff transport (n + 1) (k + 1) := by
    simp [_request_backoff, _request_of_429 h429]
  rw [step, _request_backoff_of_2xx hok (n + 1)]

/-- Concrete instance of `backoff_recovers_after_one_retry`: a transport
that is rate-limited once then succeeds, with `max_tries = 10`. -/
theorem backoff_recovers_after_one_retry_witness :
    _request_backoff (fun i => if i = 0 then resp429 else resp200) 10 0 =
      (Except.ok ((fun i => if i = 0 then resp429 else resp200) (0 + 1)),
        0 + 2) :=
  (backoff_recovers_after_one_retry
    (fun i => if i = 0 then resp429 else resp200) 10 0 (by decide)
    (by decide) (by decide)).1

/-! ### Paginated list producer -/

lemma listLoop_stop {α : Type} (requested : Nat)
    (script : List (FetchResult α)) {rem : Int} {next : Option String}
    (h : ¬ (0 < rem ∧ next.isSome = true)) :
    listLoop requested script rem next = ⟨[], [], [], 0, none, false⟩ := by
  rw [listLoop.eq_def]
  rw [if_neg h]

lemma listLoop_nil {α : Type} (requested : Nat) {rem : Int}
    {next : Option String} (h : 0 < rem ∧ next.isSome = true) :
    listLoop requested ([] : List (FetchResult α)) rem next =
      ⟨[], [], [], 0, none, true⟩ := by
  rw [listLoop]
  rw [if_pos h]

lemma listLoop_fail {α : Type} (requested : Nat) {rem : Int}
    {next : Option String} (resp : Response)
    (s : List (FetchResult α)) (h : 0 < rem ∧ next.isSome = true) :
    listLoop requested (FetchResult.fail resp :: s) rem next =
      ⟨[], [], [Int.toNat (min rem 200)], 1,
        some (requestError resp), false⟩ := by
  rw [listLoop]
  rw [if_pos h]

lemma listLoop_ok {α : Type} (requested : Nat) {rem : Int}
    {next : Option String} (p : Page α) (rest : List (FetchResult α))
    (h : 0 < rem ∧ next.isSome = true) :
    listLoop requested (FetchResult.ok p :: rest) rem next =
      ⟨p.list.take rem.toNat ::
          (listLoop requested rest ((requested : Int) - p.list.length)
            p.next).perPage,
        p :: (listLoop requested rest ((requested : Int) - p.list.length)
            p.next).pagesFetched,
        Int.toNat (min rem 200) ::
          (listLoop requested rest ((requested : Int) - p.list.length)
            p.next).followUps,
        (listLoop requested rest ((requested : Int) - p.list.length)
            p.next).requests + 1,
        (listLoop requested rest ((requested : Int) - p.list.length)
            p.next).error,
        (listLoop requested rest ((requested : Int) - p.list.length)
            p.next).starved⟩ := by
  rw [listLoop]
  rw [if_pos h]

lemma list_core_nil {α : Type} (requested : Nat) :
    list_core requested ([] : List (FetchResult α)) =
      ⟨[], [], [], 0, none, true⟩ := rfl

lemma list_core_fail {α : Type} (requested : Nat) (resp : Response)
    (s : List (FetchResult α)) :
    list_core requested (FetchResult.fail resp :: s) =
      ⟨[], [], [], 1, some (requestError resp), false⟩ := rfl

lemma list_core_ok {α : Type} (requested : Nat) (p : Page α)
    (rest : List (FetchResult α)) :
    list_core requested (FetchResult.ok p :: rest) =
      ⟨p.list.take requested ::
          (listLoop requested rest ((requested : Int) - p.list.length)
            p.next).perPage,
        p :: (listLoop requested rest ((requested : Int) - p.list.length)
            p.next).pagesFetched,
        (listLoop requested rest ((requested : Int) - p.list.length)
            p.next).followUps,
        (listLoop requested rest ((requested : Int) - p.list.length)
            p.next).requests + 1,
        (listLoop requested rest ((requested : Int) - p.list.length)
            p.next).error,
        (listLoop requested rest ((requested : Int) - p.list.length)
            p.next).starved⟩ := rfl

lemma listLoop_perPage_nil_of_requests_zero {α : Type} (requested : Nat)
    (script : List (FetchResult α)) (rem : Int) (next : Option String)
    (h : (listLoop requested script rem next).requests = 0) :
    (listLoop requested script rem next).perPage = [] := by
  by_cases hc : 0 < rem ∧ next.isSome = true
  · cases script with
    | nil => rw [listLoop_nil requested hc]
    | cons fr rest =>
      cases fr with
      | ok p =>
        rw [listLoop_ok requested p rest hc] at h
        simp at h
      | fail resp =>
        rw [listLoop_fail requested resp rest hc] at h
        simp at h
  · rw [listLoop_stop requested script hc]

lemma listLoop_yield_le {α : Type} (requested : Nat)
    (script : List (FetchResult α)) :
    ∀ (rem : Int) (next : Option String),
      (listLoop requested script rem next).yielded.length ≤
        ((listLoop requested script rem next).pagesFetched.map
          (fun p => p.list.length)).sum := by
  induction script with
  | nil =>
    intro rem next
    by_cases hc : 0 < rem ∧ next.isSome = true
    · rw [listLoop_nil requested hc]
      simp [ListTrace.yielded]
    · rw [listLoop_stop requested [] hc]
      simp [ListTrace.yielded]
  | cons fr rest ih =>
    intro rem next
    by_cases hc : 0 < rem ∧ next.isSome = true
    · cases fr with
      | fail resp =>
        rw [listLoop_fail requested resp rest hc]
        simp [ListTrace.yielded]
      | ok p =>
        rw [listLoop_ok requested p rest hc]
        have h1 := ih ((requested : Int) - p.list.length) p.next
        have h2 : (p.list.take rem.toNat).length ≤ p.list.length := by
          rw [List.length_take]
          omega
        simp only [ListTrace.yielded, List.flatten_cons, List.map_cons,
          List.sum_cons, List.length_append]
        have := h1
        simp only [ListTrace.yielded] at this
        omega
    · rw [listLoop_stop requested (fr :: rest) hc]
      simp [ListTrace.yielded]

lemma listLoop_yield_le_rem {α : Type} (requested : Nat)
    (script : List (FetchResult α)) (rem : Int) (next : Option String)
    (h : (listLoop requested script rem next).requests ≤ 1) :
    (listLoop requested script rem next).yielded.length ≤ rem.toNat := by
  by_cases hc : 0 < rem ∧ next.isSome = true
  · cases script with
    | nil =>
      rw [listLoop_nil requested hc]
      simp [ListTrace.yielded]
    | cons fr rest =>
      cases fr with
      | fail resp =>
        rw [listLoop_fail requested resp rest hc]
        simp [ListTrace.yielded]
      | ok p =>
        rw [listLoop_ok requested p rest hc] at h ⊢
        simp only at h
        have h0 : (listLoop requested rest ((requested : Int) - p.list.length)
            p.next).requests = 0 := by omega
        rw [listLoop_perPage_nil_of_requests_zero requested rest _ _ h0]
        simp [ListTrace.yielded]
  · rw [listLoop_stop requested script hc]
    simp [ListTrace.yielded]

lemma list_core_yield_le {α : Type} (requested : Nat)
    (script : List (FetchResult α)) :
    (list_core requested script).yielded.length ≤
      ((list_core requested script).pagesFetched.map
        (fun p => p.list.length)).sum := by
  cases script with
  | nil => rw [list_core_nil]; simp [ListTrace.yielded]
  | cons fr rest =>
    cases fr with
    | fail resp => rw [list_core_fail]; simp [ListTrace.yielded]
    | ok p =>
      rw [list_core_ok]
      have h1 := listLoop_yield_le requested rest
        ((requested : Int) - p.list.length) p.next
      have h2 : (p.list.take requested).length ≤ p.list.length := by
        rw [List.length_take]
        omega
      simp only [ListTrace.yielded, List.flatten_cons, List.map_cons,
        List.sum_cons, List.length_append]
      simp only [ListTrace.yielded] at h1
      omega

lemma list_core_le_requested_of_two {α : Type} (requested : Nat)
    (script : List (FetchResult α))
    (h : (list_core requested script).requests ≤ 2) :
    (list_core requested script).yielded.length ≤ requested := by
  cases script with
  | nil => rw [list_core_nil]; simp [ListTrace.yielded]
  | cons fr rest =>
    cases fr with
    | fail resp => rw [list_core_fail]; simp [ListTrace.yielded]
    | ok p =>
      rw [list_core_ok] at h ⊢
      simp only at h
      have h1 : (listLoop requested rest ((requested : Int) - p.list.length)
          p.next).requests ≤ 1 := by omega
      have h2 := listLoop_yield_le_rem requested rest
        ((requested : Int) - p.list.length) p.next h1
      have h3 : (p.list.take requested).length = min requested p.list.length := by
        rw [List.length_take]
      simp only [ListTrace.yielded, List.flatten_cons, List.length_append]
      simp only [ListTrace.yielded] at h2
      omega

/-- Claim C1, amended: for every list production over any script of server
pages, the total number of items yielded never exceeds the total number of
items the server returned across the pages actually fetched; the bound by
the caller-requested count, however, only holds in restricted runs — in
particular whenever at most two page requests are issued — and fails in
general (see the counterexample).  Both bounds also hold verbatim for the
full `list_replays` / `list_groups` productions. -/
theorem list_core_yield_bounds {α : Type} (requested : Nat)
    (script : List (FetchResult α)) :
    (list_core requested script).yielded.length ≤
      ((list_core requested script).pagesFetched.map
        (fun p => p.list.length)).sum ∧
    ((list_core requested script).requests ≤ 2 →
      (list_core requested script).yielded.length ≤ requested) ∧
    (∀ a : ListReplaysArgs,
      (list_replays_run ⟨a, requested⟩ script).yielded.length ≤
        ((list_replays_run ⟨a, requested⟩ script).pagesFetched.map
          (fun p => p.list.length)).sum) ∧
    (∀ b : ListGroupsArgs,
      (list_groups_run ⟨b, requested⟩ script).yielded.length ≤
        ((list_groups_run ⟨b, requested⟩ script).pagesFetched.map
          (fun p => p.list.length)).sum) := by
  refine ⟨list_core_yield_le requested script,
    list_core_le_requested_of_two requested script, fun a => ?_, fun b => ?_⟩
  · rw [list_replays_run]
    cases list_replays_validate a with
    | none => exact list_core_yield_le requested script
    | some e => simp [ListTrace.yielded]
  · rw [list_groups_run]
    cases list_groups_validate b with
    | none => exact list_core_yield_le requested script
    | some e => simp [ListTrace.yielded]

/-- Concrete instance of `list_core_yield_bounds` on the spec's §8
two-page script with `requested_count = 4`. -/
theorem list_core_yield_bounds_witness :
    (list_core 4 twoPageScript).yielded.length ≤
      ((list_core 4 twoPageScript).pagesFetched.map
        (fun p => p.list.length)).sum ∧
    (list_core 4 twoPageScript).yielded.length ≤ 4 :=
  ⟨(list_core_yield_bounds 4 twoPageScript).1,
    (list_core_yield_bounds 4 twoPageScript).2.1 (by decide)⟩

/-- Claim C1, counterexample: with `requested_count = 10` over pages of
sizes 8, 1 and 9 (the first two carrying `next` pointers), the producer
yields 18 items — more than the caller requested — because `remaining` is
recomputed from the last page's length alone. -/
theorem list_core_exceeds_requested_counterexample :
    (list_core 10 unevenScript).yielded.length = 18 ∧
    ¬ ((list_core 10 unevenScript).yielded.length ≤ 10) := by
  refine ⟨rfl, ?_⟩
  decide

/-- Claim C7: whenever the requested count is at most the number of items
on the first response page, the producer issues exactly one request
(no follow-ups), finishes without error, and yields exactly
`min(requested_count, first page size) = requested_count` items — the
first-page items in their original order. -/
theorem list_core_single_page {α : Type} (requested : Nat) (p : Page α)
    (rest : List (FetchResult α)) (h : requested ≤ p.list.length) :
    list_core requested (FetchResult.ok p :: rest) =
      ⟨[p.list.take requested], [p], [], 1, none, false⟩ ∧
    (list_core requested (FetchResult.ok p :: rest)).yielded =
      p.list.take requested ∧
    (p.list.take requested).length = min requested p.list.length := by
  have hstop : ¬ (0 < (requested : Int) - p.list.length ∧
      (p.next).isSome = true) := by
    rw [not_and]
    intro h0
    omega
  have heq : list_core requested (FetchResult.ok p :: rest) =
      ⟨[p.list.take requested], [p], [], 1, none, false⟩ := by
    rw [list_core_ok, listLoop_stop requested rest hstop]
  refine ⟨heq, ?_, by rw [List.length_take]⟩
  rw [heq]
  simp [ListTrace.yielded]

/-- Concrete instance of `list_core_single_page`: requesting 1 item from
the §8 scenario's first page of 2 items. -/
theorem list_core_single_page_witness :
    list_core 1 (FetchResult.ok pageAB :: [FetchResult.ok pageCD]) =
      ⟨[pageAB.list.take 1], [pageAB], [], 1, none, false⟩ ∧
    (list_core 1 (FetchResult.ok pageAB :: [FetchResult.ok pageCD])).yielded =
      pageAB.list.take 1 ∧
    (pageAB.list.take 1).length = min 1 pageAB.list.length :=
  list_core_single_page 1 pageAB [FetchResult.ok pageCD] (by decide)

/-- Claim C8: after yielding a page's items the producer's follow-up loop
issues another request if and only if the freshly recomputed `remaining`
is positive and the page just consumed carried a `next` pointer; every
follow-up request is sent with page-size parameter
`count = min(remaining, 200)`; and when the page has no `next` pointer the
loop terminates with no further requests, however large the requested
count is. -/
theorem listLoop_followup_conditions {α : Type} (requested : Nat)
    (script : List (FetchResult α)) (rem : Int) (next : Option String) :
    (next = none → listLoop requested script rem next =
      ⟨[], [], [], 0, none, false⟩) ∧
    (rem ≤ 0 → listLoop requested script rem next =
      ⟨[], [], [], 0, none, false⟩) ∧
    (0 < rem → next.isSome = true →
      ∀ (fr : FetchResult α) (rest : List (FetchResult α)),
        script = fr :: rest →
        1 ≤ (listLoop requested script rem next).requests ∧
        (listLoop requested script rem next).followUps.head? =
          some (Int.toNat (min rem 200))) := by
  refine ⟨fun hn => ?_, fun hr => ?_, fun h0 hs fr rest hscript => ?_⟩
  · refine listLoop_stop requested script ?_
    rw [hn]
    simp
  · refine listLoop_stop requested script ?_
    rw [not_and]
    intro h0
    omega
  · subst hscript
    cases fr with
    | fail resp =>
      rw [listLoop_fail requested resp rest ⟨h0, hs⟩]
      exact ⟨Nat.le_refl 1, rfl⟩
    | ok p =>
      rw [listLoop_ok requested p rest ⟨h0, hs⟩]
      exact ⟨Nat.le_add_left 1 _, rfl⟩

/-- Concrete instance of `listLoop_followup_conditions`: with
`remaining = 98` and a `next` pointer present the follow-up is issued with
`count = min(98, 200) = 98`; with no `next` pointer the loop stops. -/
theorem listLoop_followup_conditions_witness :
    (1 ≤ (listLoop 100 [FetchResult.ok pageCD] 98 (some "u")).requests ∧
      (listLoop 100 [FetchResult.ok pageCD] 98 (some "u")).followUps.head? =
        some (Int.toNat (min 98 200))) ∧
    listLoop 100 [FetchResult.ok pageCD] 98 none =
      ⟨[], [], [], 0, none, false⟩ :=
  ⟨(listLoop_followup_conditions 100 [FetchResult.ok pageCD] 98
      (some "u")).2.2 (by decide) (by decide) (FetchResult.ok pageCD) [] rfl,
    (listLoop_followup_conditions 100 [FetchResult.ok pageCD] 98 none).1 rfl⟩

lemma listLoop_perPage_spec {α : Type} (requested : Nat)
    (script : List (FetchResult α)) :
    ∀ (rem : Int) (next : Option String),
      ((listLoop requested script rem next).perPage.length =
        (listLoop requested script rem next).pagesFetched.length) ∧
      (∀ pg, (listLoop requested script rem next).pagesFetched[0]? = some pg →
        (listLoop requested script rem next).perPage[0]? =
          some (pg.list.take rem.toNat)) ∧
      (∀ (k : Nat) (pprev pg : Page α),
        (listLoop requested script rem next).pagesFetched[k]? = some pprev →
        (listLoop requested script rem next).pagesFetched[k + 1]? = some pg →
        (listLoop requested script rem next).perPage[k + 1]? =
          some (pg.list.take
            (Int.toNat ((requested : Int) - pprev.list.length)))) := by
  induction script with
  | nil =>
    intro rem next
    by_cases hc : 0 < rem ∧ next.isSome = true
    · rw [listLoop_nil requested hc]
      simp
    · rw [listLoop_stop requested [] hc]
      simp
  | cons fr rest ih =>
    intro rem next
    by_cases hc : 0 < rem ∧ next.isSome = true
    · cases fr with
      | fail resp =>
        rw [listLoop_fail requested resp rest hc]
        simp
      | ok p =>
        rw [listLoop_ok requested p rest hc]
        refine ⟨?_, ?_, ?_⟩
        · simp only [List.length_cons]
          rw [(ih ((requested : Int) - p.list.length) p.next).1]
        · intro pg hpg
          simp only [List.getElem?_cons_zero, Option.some.injEq] at hpg
          subst hpg
          simp
        · intro k pprev pg hprev hpg
          cases k with
          | zero =>
            simp only [List.getElem?_cons_zero, Option.some.injEq] at hprev
            subst hprev
            simp only [List.getElem?_cons_succ] at hpg ⊢
            exact (ih ((requested : Int) - p.list.length) p.next).2.1 pg hpg
          | succ j =>
            simp only [List.getElem?_cons_succ] at hprev hpg ⊢
            exact (ih ((requested : Int) - p.list.length) p.next).2.2
              j pprev pg hprev hpg
    · rw [listLoop_stop requested (fr :: rest) hc]
      simp

/-- Claim C2: after each page fetch the producer recomputes `remaining`
fresh as `requested_count - len(page just fetched)` — not as a cumulative
running total — and from each fetched page it yields exactly the page's
prefix of length `min(page length, remaining)` in original order: the
items yielded from fetched page `k` are `page_k.list[:freshRemaining k]`,
where `freshRemaining 0 = requested_count` and
`freshRemaining (k+1) = requested_count - len(page_k)` (clamped at 0). -/
theorem list_core_fresh_remaining {α : Type} (requested : Nat)
    (script : List (FetchResult α)) :
    ((list_core requested script).perPage.length =
      (list_core requested script).pagesFetched.length) ∧
    (∀ (k : Nat) (pg : Page α),
      (list_core requested script).pagesFetched[k]? = some pg →
      (list_core requested script).perPage[k]? =
        some (pg.list.take
          (freshRemaining requested (list_core requested script).pagesFetched
            k))) := by
  cases script with
  | nil =>
    rw [list_core_nil]
    simp
  | cons fr rest =>
    cases fr with
    | fail resp =>
      rw [list_core_fail]
      simp
    | ok p =>
      rw [list_core_ok]
      have spec := listLoop_perPage_spec requested rest
        ((requested : Int) - p.list.length) p.next
      refine ⟨?_, ?_⟩
      · simp only [List.length_cons]
        rw [spec.1]
      · intro k pg hpg
        cases k with
        | zero =>
          simp only [List.getElem?_cons_zero, Option.some.injEq] at hpg
          subst hpg
          simp [freshRemaining]
        | succ j =>
          simp only [List.getElem?_cons_succ] at hpg ⊢
          cases j with
          | zero =>
            have h0 := spec.2.1 pg hpg
            rw [h0]
            simp only [freshRemaining, List.getElem?_cons_zero]
            rfl
          | succ i =>
            have hlt' : i <
                (listLoop requested rest ((requested : Int) - p.list.length)
                  p.next).pagesFetched.length := by
              obtain ⟨hlt, -⟩ := List.getElem?_eq_some_iff.mp hpg
              omega
            obtain ⟨pprev, hprev⟩ :
                ∃ q, (listLoop requested rest
                  ((requested : Int) - p.list.length)
                  p.next).pagesFetched[i]? = some q :=
              ⟨_, List.getElem?_eq_some_iff.mpr ⟨hlt', rfl⟩⟩
            have h2 := spec.2.2 i pprev pg hprev hpg
            rw [h2]
            simp only [freshRemaining, List.getElem?_cons_succ]
            rw [hprev]
            rfl

/-- Concrete instance of `list_core_fresh_remaining` on the §8 two-page
script with `requested_count = 4`: the second page contributes
`page2[:4 - len(page1)] = page2[:2]`. -/
theorem list_core_fresh_remaining_witness :
    ((list_core 4 twoPageScript).perPage.length =
      (list_core 4 twoPageScript).pagesFetched.length) ∧
    (list_core 4 twoPageScript).perPage[1]? =
      some (pageCD.list.take
        (freshRemaining 4 (list_core 4 twoPageScript).pagesFetched 1)) :=
  ⟨(list_core_fresh_remaining 4 twoPageScript).1,
    (list_core_fresh_remaining 4 twoPageScript).2 1 pageCD (by decide)⟩

lemma listLoop_starved_append {α : Type} (requested : Nat) (resp : Response)
    (extra : List (FetchResult α)) (script : List (FetchResult α)) :
    ∀ (rem : Int) (next : Option String),
      (listLoop requested script rem next).starved = true →
      (listLoop requested (script ++ FetchResult.fail resp :: extra) rem
          next).perPage = (listLoop requested script rem next).perPage ∧
      (listLoop requested (script ++ FetchResult.fail resp :: extra) rem
          next).pagesFetched =
        (listLoop requested script rem next).pagesFetched ∧
      (listLoop requested (script ++ FetchResult.fail resp :: extra) rem
          next).requests = (listLoop requested script rem next).requests + 1 ∧
      (listLoop requested (script ++ FetchResult.fail resp :: extra) rem
          next).error = some (requestError resp) ∧
      (listLoop requested (script ++ FetchResult.fail resp :: extra) rem
          next).starved = false := by
  induction script with
  | nil =>
    intro rem next h
    by_cases hc : 0 < rem ∧ next.isSome = true
    · rw [listLoop_nil requested hc, List.nil_append,
        listLoop_fail requested resp extra hc]
      exact ⟨rfl, rfl, rfl, rfl, rfl⟩
    · rw [listLoop_stop requested [] hc] at h
      simp at h
  | cons fr rest ih =>
    intro rem next h
    by_cases hc : 0 < rem ∧ next.isSome = true
    · cases fr with
      | fail r =>
        rw [listLoop_fail requested r rest hc] at h
        simp at h
      | ok p =>
        rw [listLoop_ok requested p rest hc] at h
        simp only at h
        have ihh := ih ((requested : Int) - p.list.length) p.next h
        rw [List.cons_append,
          listLoop_ok requested p (rest ++ FetchResult.fail resp :: extra) hc,
          listLoop_ok requested p rest hc]
        exact ⟨by simp [ihh.1], by simp [ihh.2.1], by simp [ihh.2.2.1],
          by simp [ihh.2.2.2.1], by simp [ihh.2.2.2.2]⟩
    · rw [listLoop_stop requested (fr :: rest) hc] at h
      simp at h

/-- Claim C9: if a page fetch at any position in a list production comes
back with a non-2xx, non-429 status, the generic exception `_request`
raises propagates to the consumer at exactly that fetch: the trace records
the exception (no silent truncation), exactly one more request than the
failure-free run over the preceding pages, and the very same items already
yielded before the failure.  The hypothesis `starved = true` states that
the production over the prefix script was still due another fetch — i.e.
that the failing fetch is actually reached. -/
theorem list_core_fail_propagates {α : Type} (requested : Nat)
    (script : List (FetchResult α)) (resp : Response)
    (extra : List (FetchResult α))
    (hs : (list_core requested script).starved = true)
    (h2 : ¬ (200 ≤ resp.status_code ∧ resp.status_code < 300))
    (h429 : resp.status_code ≠ 429) :
    (list_core requested (script ++ FetchResult.fail resp :: extra)).error =
      some (BCError.generic resp.text) ∧
    (list_core requested (script ++ FetchResult.fail resp :: extra)).yielded =
      (list_core requested script).yielded ∧
    (list_core requested
        (script ++ FetchResult.fail resp :: extra)).requests =
      (list_core requested script).requests + 1 ∧
    _request resp = Except.error (BCError.generic resp.text) := by
  have herr : requestError resp = BCError.generic resp.text := by
    rw [requestError, if_neg h429]
  cases script with
  | nil =>
    rw [List.nil_append, list_core_fail, list_core_nil]
    exact ⟨by rw [herr], rfl, rfl, _request_of_other h2 h429⟩
  | cons fr rest =>
    cases fr with
    | fail r =>
      rw [list_core_fail] at hs
      simp at hs
    | ok p =>
      rw [list_core_ok] at hs
      simp only at hs
      have ihh := listLoop_starved_append requested resp extra rest
        ((requested : Int) - p.list.length) p.next hs
      rw [List.cons_append,
        list_core_ok requested p (rest ++ FetchResult.fail resp :: extra),
        list_core_ok requested p rest]
      refine ⟨?_, ?_, ?_, _request_of_other h2 h429⟩
      · simp [ihh.2.2.2.1, herr]
      · simp [ListTrace.yielded, ihh.1]
      · simp [ihh.2.2.1]

/-- Concrete instance of `list_core_fail_propagates`: the first page
yields two items and carries a `next` pointer, and the second fetch fails
with status 500. -/
theorem list_core_fail_propagates_witness :
    (list_core 4 ([FetchResult.ok pageAB] ++
        FetchResult.fail resp500 :: [])).error =
      some (BCError.generic resp500.text) ∧
    (list_core 4 ([FetchResult.ok pageAB] ++
        FetchResult.fail resp500 :: [])).yielded =
      (list_core 4 [FetchResult.ok pageAB]).yielded ∧
    (list_core 4 ([FetchResult.ok pageAB] ++
        FetchResult.fail resp500 :: [])).requests =
      (list_core 4 [FetchResult.ok pageAB]).requests + 1 ∧
    _request resp500 = Except.error (BCError.generic resp500.text) :=
  list_core_fail_propagates 4 [FetchResult.ok pageAB] resp500 []
    (by decide) (by decide) (by decide)

lemma orElse_isSome_left {a b : Option BCError} (h : a.isSome = true) :
    (a <|> b).isSome = true := by
  cases a with
  | none => simp at h
  | some v => simp

lemma orElse_isSome_right {a b : Option BCError} (h : b.isSome = true) :
    (a <|> b).isSome = true := by
  cases a with
  | none => simpa
  | some v => simp

lemma _check_param_isSome_of_not_mem {v : String} {allowed : List String}
    (nm : String) (pl : List String) (hvp : v ∈ pl) (hv : v ∉ allowed) :
    (_check_param pl allowed nm).isSome = true := by
  induction pl with
  | nil => cases hvp
  | cons x xs ih =>
    rw [_check_param]
    by_cases hx : x ∈ allowed
    · rw [if_pos hx]
      rcases List.mem_cons.mp hvp with h | h
      · subst h
        exact absurd hx hv
      · exact ih h
    · rw [if_neg hx]
      rfl

lemma _check_param_singleton_isSome {v : String} {allowed : List String}
    (nm : String) (hv : v ∉ allowed) :
    (_check_param [v] allowed nm).isSome = true :=
  _check_param_isSome_of_not_mem nm [v] (List.mem_singleton.mpr rfl) hv

lemma list_replays_validate_isSome {a : ListReplaysArgs}
    (h : (¬ pyTruthy a.player_name ∧ ¬ pyTruthy a.player_id) ∨
      (∃ pl v, a.playlist = some pl ∧ v ∈ pl ∧ v ∉ _playlists) ∨
      (∃ v, a.match_result = some v ∧ v ∉ _match_results) ∨
      (∃ v, a.min_rank = some v ∧ v ∉ _ranks) ∨
      (∃ v, a.max_rank = some v ∧ v ∉ _ranks) ∨
      a.sort_by ∉ _sort_by_replays ∨ a.sort_dir ∉ _sort_dir) :
    (list_replays_validate a).isSome = true := by
  rw [list_replays_validate]
  by_cases hp : ¬ pyTruthy a.player_name ∧ ¬ pyTruthy a.player_id
  · rw [if_pos hp]
    rfl
  · rw [if_neg hp]
    rcases h with h | ⟨pl, v, hpl, hv1, hv2⟩ | ⟨v, hmr, hv⟩ | ⟨v, hmn, hv⟩ |
      ⟨v, hmx, hv⟩ | h | h
    · exact absurd h hp
    · apply orElse_isSome_left
      rw [hpl]
      exact _check_param_isSome_of_not_mem "playlist" pl hv1 hv2
    · apply orElse_isSome_right
      apply orElse_isSome_left
      rw [checkOpt.eq_def, hmr]
      exact _check_param_singleton_isSome "match_result" hv
    · apply orElse_isSome_right
      apply orElse_isSome_right
      apply orElse_isSome_left
      rw [checkOpt.eq_def, hmn]
      exact _check_param_singleton_isSome "min_rank" hv
    · apply orElse_isSome_right
      apply orElse_isSome_right
      apply orElse_isSome_right
      apply orElse_isSome_left
      rw [checkOpt.eq_def, hmx]
      exact _check_param_singleton_isSome "max_rank" hv
    · apply orElse_isSome_right
      apply orElse_isSome_right
      apply orElse_isSome_right
      apply orElse_isSome_right
      apply orElse_isSome_left
      exact _check_param_singleton_isSome "sort_by" h
    · apply orElse_isSome_right
      apply orElse_isSome_right
      apply orElse_isSome_right
      apply orElse_isSome_right
      apply orElse_isSome_right
      exact _check_param_singleton_isSome "sort_dir" h

/-- Claim C10: `list_replays` and `list_groups` are generator functions,
so calling them only packages the arguments — no validation and no network
request happens at the call (modelled by `list_replays_call` /
`list_groups_call`, which build the generator object and nothing else).
When the iterator is first driven with both `player_name` and `player_id`
missing (Python-falsy), or with any inspected parameter outside its
allow-list, the validation exception is raised on that first iteration,
before any network request: the trace records the error with zero requests
issued and nothing yielded. -/
theorem list_replays_lazy_validation {α : Type} (a : ListReplaysArgs)
    (n : Nat) (script : List (FetchResult α))
    (h : (¬ pyTruthy a.player_name ∧ ¬ pyTruthy a.player_id) ∨
      (∃ pl v, a.playlist = some pl ∧ v ∈ pl ∧ v ∉ _playlists) ∨
      (∃ v, a.match_result = some v ∧ v ∉ _match_results) ∨
      (∃ v, a.min_rank = some v ∧ v ∉ _ranks) ∨
      (∃ v, a.max_rank = some v ∧ v ∉ _ranks) ∨
      a.sort_by ∉ _sort_by_replays ∨ a.sort_dir ∉ _sort_dir) :
    list_replays_call a n = ⟨a, n⟩ ∧
    (∃ e, list_replays_run (list_replays_call a n) script =
      ⟨[], [], [], 0, some e, false⟩) ∧
    (∀ (b : ListGroupsArgs) (m : Nat) (script2 : List (FetchResult α)),
      b.sort_by ∉ _sort_by_groups →
      list_groups_call b m = ⟨b, m⟩ ∧
      ∃ e, list_groups_run (list_groups_call b m) script2 =
        ⟨[], [], [], 0, some e, false⟩) := by
  refine ⟨rfl, ?_, fun b m script2 hb => ⟨rfl, ?_⟩⟩
  · obtain ⟨e, he⟩ :=
      Option.isSome_iff_exists.mp (list_replays_validate_isSome h)
    refine ⟨e, ?_⟩
    rw [list_replays_run]
    simp only [list_replays_call]
    rw [he]
  · have hv : (list_groups_validate b).isSome = true := by
      rw [list_groups_validate]
      exact orElse_isSome_left (_check_param_singleton_isSome "sort_by" hb)
    obtain ⟨e, he⟩ := Option.isSome_iff_exists.mp hv
    refine ⟨e, ?_⟩
    rw [list_groups_run]
    simp only [list_groups_call]
    rw [he]

/-- Concrete instance of `list_replays_lazy_validation`: neither
`player_name` nor `player_id` supplied, defaults everywhere else. -/
theorem list_replays_lazy_validation_witness :
    list_replays_call ⟨none, none, none, none, none, none, "created", "desc"⟩
        50 =
      ⟨⟨none, none, none, none, none, none, "created", "desc"⟩, 50⟩ ∧
    ∃ e, list_replays_run
        (list_replays_call
          ⟨none, none, none, none, none, none, "created", "desc"⟩ 50)
        ([] : List (FetchResult Nat)) =
      ⟨[], [], [], 0, some e, false⟩ :=
  ⟨(list_replays_lazy_validation
      ⟨none, none, none, none, none, none, "created", "desc"⟩ 50
      ([] : List (FetchResult Nat)) (Or.inl ⟨by decide, by decide⟩)).1,
    (list_replays_lazy_validation
      ⟨none, none, none, none, none, none, "created", "desc"⟩ 50
      ([] : List (FetchResult Nat)) (Or.inl ⟨by decide, by decide⟩)).2.1⟩

end BallChaser
